import Mathlib

/-!
Verification of the combat proximity subsystem
(`src/world/combat/proximity.py`) of korvessarpi/kowloon-gel.

Shallow embedding conventions:

* An actor is identified by a natural number (object identity).
* A neighbor-set entry (`Obj`) is `Option Actor`: `none` models the Python
  value `None` sitting inside a set; `some a` models a real actor object.
* Per-actor attribute storage (`character.ndb.<NDB_PROXIMITY>`) is modelled by
  `State := Actor → Option PVal`: `none` means the attribute is absent
  (`hasattr` is false, `getattr` would raise), `some (PVal.pset l)` means the
  attribute holds a proper Python `set` (enumerated in the order of `l`), and
  `some PVal.junk` means the attribute holds a malformed non-set value.
* Operations that contain an attribute access or method call that can raise
  (`getattr` on a possibly missing attribute, `x.ndb` on a possibly-`None`
  set element, `.add` on a value of unknown shape) return `Option`; `none`
  models an uncaught Python exception.
* External collaborator capabilities (`Actor.isValid` via object truthiness,
  the optional `location` attribute, `hasattr(opponent, stat_name)`, the
  external `roll_stat`) are collected in an `Env` record; they are read-only
  for this subsystem.
* Logging (`log_debug`) is a fire-and-forget diagnostic sink with no effect
  on the relation state, so it is not modelled.
-/

abbrev Actor := Nat

/-- A value stored in a Python set of characters: `none` is Python `None`. -/
abbrev Obj := Option Actor

/-- The possible shapes of the `NDB_PROXIMITY` attribute value: a proper
Python `set` of objects (with its enumeration order), or some malformed
non-set value. -/
inductive PVal where
  | pset (l : List Obj)
  | junk
  deriving DecidableEq

/-- The attribute store: for each actor, the `NDB_PROXIMITY` attribute is
absent (`none`) or holds a `PVal`. -/
abbrev State := Actor → Option PVal

/-- Overwrite one actor's `NDB_PROXIMITY` attribute (`setattr`, or an
in-place mutation of the stored set object). -/
def setTo (s : State) (c : Actor) (v : PVal) : State :=
  fun x => if x = c then some v else s x

/-- `hasattr(character.ndb, NDB_PROXIMITY) and isinstance(getattr(...), set)`
collapsed into one test on the stored value. -/
def isProperSet : Option PVal → Bool
  | some (PVal.pset _) => true
  | _ => false

/-- Python `set.add`: no-op when the element is present, otherwise the
element joins the enumeration at the end. -/
def setAdd (l : List Obj) (x : Obj) : List Obj :=
  if x ∈ l then l else l ++ [x]

/-- Python `set.discard`: remove the element if present, never an error. -/
def setDiscard (l : List Obj) (x : Obj) : List Obj :=
  l.filter (fun y => decide (y ≠ x))

/-- External collaborator capabilities consumed by the subsystem. -/
structure Env where
  /-- Object truthiness of a live actor: `not other_char` is `!valid a`. -/
  valid : Actor → Bool
  /-- Whether the actor has a `location` attribute at all. -/
  hasLocAttr : Actor → Bool
  /-- The value of `actor.location` when the attribute exists; `none` models
  a `None`/falsy location. -/
  loc : Actor → Option Nat
  /-- `hasattr(opponent, stat_name)`. -/
  hasStat : Actor → String → Bool
  /-- The external `roll_stat(opponent, stat_name)` function. -/
  rollStat : Actor → String → Int

/-- `initialize_proximity(character)`: install a fresh empty set if the
attribute is missing or malformed; report whether initialization happened. -/
def initialize_proximity (s : State) (c : Actor) : State × Bool :=
  if !(isProperSet (s c)) then (setTo s c (PVal.pset []), true)
  else (s, false)

/-- `establish_proximity(char1, char2)`: no-op on `char1 == char2`;
otherwise initialize both sides, fetch both stored sets with `getattr`, and
add each actor to the other's set.  The wildcard arm models the exception
the unguarded `getattr`/`.add` would raise on a malformed value (it is
proved unreachable below). -/
def establish_proximity (s : State) (c1 c2 : Actor) : Option State :=
  if c1 = c2 then some s
  else
    let s1 := (initialize_proximity s c1).1
    let s2 := (initialize_proximity s1 c2).1
    match s2 c1, s2 c2 with
    | some (PVal.pset l1), some (PVal.pset l2) =>
        some (setTo (setTo s2 c1 (PVal.pset (setAdd l1 (some c2))))
                c2 (PVal.pset (setAdd l2 (some c1))))
    | _, _ => none

/-- The guarded `if hasattr(x.ndb, NDB_PROXIMITY) and isinstance(..., set):
getattr(x.ndb, NDB_PROXIMITY).discard(y)` pattern used by `break` and
`clear_all`: best-effort removal from a real actor's stored set. -/
def discardFrom (s : State) (a : Actor) (x : Obj) : State :=
  match s a with
  | some (PVal.pset l) => setTo s a (PVal.pset (setDiscard l x))
  | _ => s

/-- `break_proximity(char1, char2)`: no-op on `char1 == char2`, otherwise
guarded best-effort discard on both sides.  Total: every access is guarded. -/
def break_proximity (s : State) (c1 c2 : Actor) : State :=
  if c1 = c2 then s
  else discardFrom (discardFrom s c1 (some c2)) c2 (some c1)

/-- The fan-out loop of `clear_all_proximity` over a snapshot
(`list(proximity_set)`) of the owner's set.  A `None` element raises
(`other_char.ndb` on `None`), modelled by the `none` result. -/
def clearLoop (c : Actor) : List Obj → State → Option State
  | [], s => some s
  | none :: _, _ => none
  | some a :: rest, s => clearLoop c rest (discardFrom s a (some c))

/-- `clear_all_proximity(character)`: return early when the attribute is
missing or malformed; otherwise discard `character` from every current
neighbor's set, then clear the owner's own set. -/
def clear_all_proximity (s : State) (c : Actor) : Option State :=
  match s c with
  | some (PVal.pset l) =>
      match clearLoop c l s with
      | some s1 => some (setTo s1 c (PVal.pset []))
      | none => none
  | _ => some s

/-- `get_proximity_list(character)`: a list snapshot of the stored set, or
`[]` when the attribute is missing or malformed. -/
def get_proximity_list (s : State) (c : Actor) : List Obj :=
  match s c with
  | some (PVal.pset l) => l
  | _ => []

/-- `is_in_proximity(char1, char2)`.  The arguments are set-element objects
because `sync_proximity_bidirectional` calls it on set contents: when
`char1` is `None` (and differs from `char2`), evaluating `char1.ndb`
raises, modelled by the `none` result. -/
def is_in_proximity (s : State) (o1 o2 : Obj) : Option Bool :=
  if o1 = o2 then some false
  else
    match o1 with
    | none => none
    | some a =>
        match s a with
        | some (PVal.pset l) => some (decide (o2 ∈ l))
        | _ => some false

/-- The roll-collection loop of `proximity_opposed_roll`: one independent
roll per neighbor that exposes the stat, pairs kept in enumeration order.
`hasattr(None, stat_name)` is false, so a `None` entry is skipped. -/
def collectRolls (env : Env) (stat : String) : List Obj → List (Obj × Int)
  | [] => []
  | none :: rest => collectRolls env stat rest
  | some a :: rest =>
      if env.hasStat a stat then
        (some a, env.rollStat a stat) :: collectRolls env stat rest
      else collectRolls env stat rest

/-- Python `max(rolls, key=lambda x: x[1])` starting from a first element:
a later element replaces the current best only when strictly greater, so
the first element attaining the maximum wins. -/
def pyMaxFrom (b : Obj × Int) (l : List (Obj × Int)) : Obj × Int :=
  l.foldl (fun acc y => if y.2 > acc.2 then y else acc) b

/-- `proximity_opposed_roll(character, stat_name)`: sentinel `(0, None, [])`
on an empty neighbor list or when no neighbor exposes the stat; otherwise
the maximum roll, its opponent, and the full roll list. -/
def proximity_opposed_roll (env : Env) (s : State) (c : Actor) (stat : String) :
    Int × Obj × List (Obj × Int) :=
  let pl := get_proximity_list s c
  if pl = [] then (0, none, [])
  else
    match collectRolls env stat pl with
    | [] => (0, none, [])
    | r :: rest =>
        let best := pyMaxFrom r rest
        (best.2, best.1, r :: rest)

/-- The per-neighbor removal test of `cleanup_invalid_proximity`:
`not other_char or not hasattr(other_char, 'location') or not
other_char.location`, else `hasattr(character, 'location') and
character.location != other_char.location`. -/
def shouldRemove (env : Env) (c : Actor) : Obj → Bool
  | none => true
  | some a =>
      if !env.valid a || !env.hasLocAttr a || (env.loc a).isNone then true
      else env.hasLocAttr c && decide (env.loc c ≠ env.loc a)

/-- `cleanup_invalid_proximity(character)`: return early when the attribute
is missing or malformed; otherwise collect the invalid neighbors of the
owner's set, then discard each from the owner's own set.  Total: every
attribute access is guarded (`None` entries are caught by `not other_char`
before any attribute of theirs is read). -/
def cleanup_invalid_proximity (env : Env) (s : State) (c : Actor) : State :=
  match s c with
  | some (PVal.pset l) =>
      (l.filter (shouldRemove env c)).foldl (fun s1 x => discardFrom s1 c x) s
  | _ => s

/-- One iteration of the repair loop of `sync_proximity_bidirectional`:
when the element is not already adjacent back, initialize it and add the
owner to its set.  A `None` element raises inside `is_in_proximity`
(modelled there); the inner wildcard arm models the raise of the unguarded
`getattr`/`.add` on a malformed value (proved unreachable because
`initialize_proximity` just ran). -/
def syncStep (c : Actor) (s : State) (o : Obj) : Option State :=
  match is_in_proximity s o (some c) with
  | none => none
  | some true => some s
  | some false =>
      match o with
      | none => none
      | some a =>
          match ((initialize_proximity s a).1) a with
          | some (PVal.pset l) =>
              some (setTo ((initialize_proximity s a).1) a
                (PVal.pset (setAdd l (some c))))
          | _ => none

def syncLoop (c : Actor) : List Obj → State → Option State
  | [], s => some s
  | o :: rest, s =>
      match syncStep c s o with
      | none => none
      | some s1 => syncLoop c rest s1

/-- `sync_proximity_bidirectional(character)`: return early when the
attribute is missing or malformed; otherwise run the repair loop over a
snapshot of the owner's set. -/
def sync_proximity_bidirectional (s : State) (c : Actor) : Option State :=
  match s c with
  | some (PVal.pset l) => syncLoop c l s
  | _ => some s

/-- The removal condition exactly as claim C2 words it, reading "has a
resolvable location" as "the `location` attribute exists and its value is
known (not `none`)", per the spec's gloss that `none`/absent means
"location unknown": remove `n` iff `n` is null/invalid, or `n` has no
resolvable location, or the owner has a resolvable location and the two
locations differ. -/
def claimRemoveC2 (env : Env) (c : Actor) : Obj → Bool
  | none => true
  | some a =>
      !env.valid a || !(env.hasLocAttr a && (env.loc a).isSome)
        || ((env.hasLocAttr c && (env.loc c).isSome)
             && decide (env.loc c ≠ env.loc a))

/-- The amended removal condition: as claim C2, except that the owner-side
guard only requires the `location` attribute to exist (its value may be
unknown), mirroring the code's bare `hasattr(character, 'location')`. -/
def amendedRemoveC2 (env : Env) (c : Actor) : Obj → Bool
  | none => true
  | some a =>
      !env.valid a || !env.hasLocAttr a || (env.loc a).isNone
        || (env.hasLocAttr c && decide (env.loc c ≠ env.loc a))

/-! ### Concrete example stores and environments used as witnesses -/

/-- A store with no proximity attribute anywhere. -/
def emptyState : State := fun _ => none

/-- The result of establishing proximity between actors 0 and 1 on the
empty store. -/
def estabWitState : State :=
  setTo (setTo (setTo (setTo emptyState 0 (PVal.pset [])) 1 (PVal.pset []))
      0 (PVal.pset [some 1])) 1 (PVal.pset [some 0])

/-- A one-sided edge: actor 1 is in actor 0's set, but actor 0 is absent
from actor 1's (uninitialized) set. -/
def oneSidedState : State :=
  fun n => if n = 0 then some (PVal.pset [some 1]) else none

/-- The result of a bidirectional sync of actor 0 on `oneSidedState`. -/
def syncWitState : State :=
  setTo (setTo oneSidedState 1 (PVal.pset [])) 1 (PVal.pset [some 0])

/-- Actor 0 with neighbor set containing actors 1 and 2, each of whom holds
actor 0 reciprocally. -/
def triangleState : State :=
  fun n =>
    if n = 0 then some (PVal.pset [some 1, some 2])
    else if n = 1 then some (PVal.pset [some 0])
    else if n = 2 then some (PVal.pset [some 0]) else none

/-- The result of clearing all proximity of actor 0 on `triangleState`. -/
def clearWitState : State :=
  setTo (setTo (setTo triangleState 1 (PVal.pset [])) 2 (PVal.pset []))
    0 (PVal.pset [])

/-- One-sided drift the other way: actor 2 holds actor 0, while actor 0's
set does not contain actor 2. -/
def driftState : State :=
  fun n =>
    if n = 0 then some (PVal.pset [some 1])
    else if n = 2 then some (PVal.pset [some 0]) else none

/-- The result of clearing all proximity of actor 0 on `driftState`. -/
def clearDriftWitState : State := setTo driftState 0 (PVal.pset [])

/-- A store whose actor-0 neighbor set contains the Python value `None`. -/
def nullEntryState : State :=
  fun n => if n = 0 then some (PVal.pset [none]) else none

/-- Environment for the C2 counterexample: every actor is valid and has a
`location` attribute, but actor 9's location is `None` (unknown) while
every other actor is at location 0. -/
def unknownLocEnv : Env :=
  ⟨fun _ => true, fun _ => true, fun a => if a = 9 then none else some 0,
   fun _ _ => false, fun _ _ => 0⟩

/-- Store for the C2 counterexample: actor 9 holds actor 5 as a neighbor. -/
def unknownLocState : State :=
  fun n => if n = 9 then some (PVal.pset [some 5]) else none

/-- Environment for the opposed-roll example: every actor exposes every
stat; actor 1 rolls 5 and everyone else rolls 9. -/
def rollEnv : Env :=
  ⟨fun _ => true, fun _ => true, fun _ => some 0, fun _ _ => true,
   fun a _ => if a = 1 then 5 else 9⟩

/-- Store for the opposed-roll example: actor 0's neighbors are actors
1, 2, 3 in enumeration order. -/
def rollState : State :=
  fun n => if n = 0 then some (PVal.pset [some 1, some 2, some 3]) else none

/-! ### Basic lemmas about the storage primitives -/

theorem setTo_self (s : State) (c : Actor) (v : PVal) : setTo s c v c = some v := by
  simp [setTo]

theorem setTo_other (s : State) (c : Actor) (v : PVal) {x : Actor} (h : x ≠ c) :
    setTo s c v x = s x := by
  simp [setTo, h]

theorem isProperSet_iff {v : Option PVal} :
    isProperSet v = true ↔ ∃ l, v = some (PVal.pset l) := by
  cases v with
  | none => simp [isProperSet]
  | some p =>
    cases p with
    | pset l => simp [isProperSet]
    | junk => simp [isProperSet]

theorem mem_setAdd_self (l : List Obj) (x : Obj) : x ∈ setAdd l x := by
  unfold setAdd
  split
  · assumption
  · simp

theorem mem_setAdd_of_mem {l : List Obj} {y : Obj} (x : Obj) (h : y ∈ l) :
    y ∈ setAdd l x := by
  unfold setAdd
  split
  · exact h
  · exact List.mem_append_left _ h

theorem mem_setDiscard {l : List Obj} {x y : Obj} :
    y ∈ setDiscard l x ↔ y ∈ l ∧ y ≠ x := by
  simp [setDiscard, List.mem_filter, and_comm]

theorem gl_of_pset {s : State} {c : Actor} {l : List Obj}
    (h : s c = some (PVal.pset l)) : get_proximity_list s c = l := by
  unfold get_proximity_list
  rw [h]

theorem mem_gl_iff {s : State} {c : Actor} {x : Obj} :
    x ∈ get_proximity_list s c ↔ ∃ l, s c = some (PVal.pset l) ∧ x ∈ l := by
  unfold get_proximity_list
  cases h : s c with
  | none => simp
  | some p =>
    cases p with
    | pset l => simp
    | junk => simp

theorem initialize_fst_self (s : State) (c : Actor) :
    ∃ l, ((initialize_proximity s c).1) c = some (PVal.pset l) := by
  unfold initialize_proximity
  cases h : isProperSet (s c) with
  | false => exact ⟨[], by simp [h, setTo_self]⟩
  | true =>
    obtain ⟨l, hl⟩ := isProperSet_iff.mp h
    exact ⟨l, by simp [h, hl]⟩

theorem initialize_fst_other (s : State) (c : Actor) {x : Actor} (h : x ≠ c) :
    ((initialize_proximity s c).1) x = s x := by
  unfold initialize_proximity
  split
  · exact setTo_other _ _ _ h
  · rfl

theorem is_in_of_not_mem {s : State} {a : Actor} {o : Obj}
    (h : o ∉ get_proximity_list s a) : is_in_proximity s (some a) o = some false := by
  unfold is_in_proximity
  split
  · rfl
  · cases hs : s a with
    | none => simp [hs]
    | some p =>
      cases p with
      | pset l =>
        have hnl : o ∉ l := by
          rw [gl_of_pset hs] at h
          exact h
        simp [hs, hnl]
      | junk => simp [hs]

theorem is_in_of_mem {s : State} {a : Actor} {o : Obj}
    (hne : some a ≠ o) (h : o ∈ get_proximity_list s a) :
    is_in_proximity s (some a) o = some true := by
  rw [mem_gl_iff] at h
  obtain ⟨l, hs, hmem⟩ := h
  unfold is_in_proximity
  simp [hne, hs, hmem]

theorem is_in_some_true_mem {s : State} {a : Actor} {o : Obj}
    (h : is_in_proximity s (some a) o = some true) : o ∈ get_proximity_list s a := by
  unfold is_in_proximity at h
  by_cases he : some a = o
  · simp [he] at h
  · simp only [if_neg he] at h
    cases hs : s a with
    | none => rw [hs] at h; simp at h
    | some p =>
      cases p with
      | pset l =>
        rw [hs] at h
        simp at h
        rw [gl_of_pset hs]
        exact h
      | junk => rw [hs] at h; simp at h

theorem discardFrom_other {s : State} {a : Actor} (x : Obj) {b : Actor} (h : b ≠ a) :
    discardFrom s a x b = s b := by
  unfold discardFrom
  cases hs : s a with
  | none => rfl
  | some p =>
    cases p with
    | pset l => exact setTo_other _ _ _ h
    | junk => rfl

theorem gl_discardFrom_other {s : State} {a : Actor} (x : Obj) {b : Actor} (h : b ≠ a) :
    get_proximity_list (discardFrom s a x) b = get_proximity_list s b := by
  unfold get_proximity_list
  rw [discardFrom_other x h]

theorem mem_gl_discardFrom_self {s : State} {a : Actor} {x y : Obj} :
    y ∈ get_proximity_list (discardFrom s a x) a ↔
      y ∈ get_proximity_list s a ∧ y ≠ x := by
  unfold discardFrom
  cases hs : s a with
  | none => simp [get_proximity_list, hs]
  | some p =>
    cases p with
    | pset l =>
      have h1 : get_proximity_list (setTo s a (PVal.pset (setDiscard l x))) a =
          setDiscard l x := gl_of_pset (setTo_self s a _)
      simp only [hs]
      rw [h1, gl_of_pset hs, mem_setDiscard]
    | junk => simp [get_proximity_list, hs]

theorem initialize_of_proper {s : State} {c : Actor} (h : isProperSet (s c) = true) :
    initialize_proximity s c = (s, false) := by
  unfold initialize_proximity
  simp [h]

theorem gl_of_not_proper {s : State} {c : Actor} (h : isProperSet (s c) = false) :
    get_proximity_list s c = [] := by
  unfold get_proximity_list
  cases hs : s c with
  | none => rfl
  | some p =>
    cases p with
    | pset l => rw [hs] at h; simp [isProperSet] at h
    | junk => rfl

theorem sync_step_mono {s : State} {a c : Actor} {l : List Obj}
    (hl : ((initialize_proximity s a).1) a = some (PVal.pset l)) (b : Actor) (x : Obj)
    (hx : x ∈ get_proximity_list s b) :
    x ∈ get_proximity_list
      (setTo ((initialize_proximity s a).1) a (PVal.pset (setAdd l (some c)))) b := by
  by_cases hb : b = a
  · subst hb
    rw [mem_gl_iff]
    refine ⟨setAdd l (some c), setTo_self _ _ _, ?_⟩
    cases hp : isProperSet (s b) with
    | true =>
      have hinit : initialize_proximity s b = (s, false) := initialize_of_proper hp
      rw [hinit] at hl
      rw [gl_of_pset hl] at hx
      exact mem_setAdd_of_mem _ hx
    | false =>
      rw [gl_of_not_proper hp] at hx
      exact absurd hx (List.not_mem_nil x)
  · rw [mem_gl_iff] at hx ⊢
    obtain ⟨m, hm, hxm⟩ := hx
    refine ⟨m, ?_, hxm⟩
    rw [setTo_other _ _ _ hb, initialize_fst_other _ _ hb, hm]

theorem syncStep_mono {c : Actor} {s s1 : State} {o : Obj}
    (h : syncStep c s o = some s1) :
    ∀ (b : Actor) (x : Obj), x ∈ get_proximity_list s b →
      x ∈ get_proximity_list s1 b := by
  intro b x hx
  unfold syncStep at h
  split at h
  · exact Option.noConfusion h
  · have hss : s = s1 := Option.some.inj h
    subst hss
    exact hx
  · split at h
    · exact Option.noConfusion h
    · split at h
      · next hl =>
        have := Option.some.inj h
        subst this
        exact sync_step_mono hl b x hx
      · exact Option.noConfusion h

theorem syncStep_adds {c : Actor} {s s1 : State} {o : Obj}
    (h : syncStep c s o = some s1) :
    ∀ a : Actor, o = some a → some c ∈ get_proximity_list s1 a := by
  intro a ha
  unfold syncStep at h
  split at h
  · exact Option.noConfusion h
  · next heq =>
    have hss : s = s1 := Option.some.inj h
    subst hss
    rw [ha] at heq
    exact is_in_some_true_mem heq
  · split at h
    · exact Option.noConfusion ha
    · rename_i a0 hfalse
      have haa : a0 = a := Option.some.inj ha
      subst haa
      split at h
      · next hl =>
        have := Option.some.inj h
        subst this
        rw [mem_gl_iff]
        exact ⟨setAdd _ (some c), setTo_self _ _ _, mem_setAdd_self _ _⟩
      · exact Option.noConfusion h

theorem syncLoop_mono {c : Actor} (l : List Obj) : ∀ (s s' : State),
    syncLoop c l s = some s' →
      ∀ (b : Actor) (x : Obj), x ∈ get_proximity_list s b →
        x ∈ get_proximity_list s' b := by
  induction l with
  | nil =>
    intro s s' h b x hx
    have hss : s = s' := Option.some.inj h
    subst hss
    exact hx
  | cons o rest ih =>
    intro s s' h b x hx
    unfold syncLoop at h
    split at h
    · exact Option.noConfusion h
    · next hstep => exact ih _ _ h b x (syncStep_mono hstep b x hx)

theorem syncLoop_adds {c : Actor} (l : List Obj) : ∀ (s s' : State),
    syncLoop c l s = some s' →
      ∀ a, some a ∈ l → some c ∈ get_proximity_list s' a := by
  induction l with
  | nil => intro s s' _ a ha; exact absurd ha (List.not_mem_nil _)
  | cons o rest ih =>
    intro s s' h a ha
    unfold syncLoop at h
    split at h
    · exact Option.noConfusion h
    · next s1 hstep =>
      rcases List.mem_cons.mp ha with hh | ht
      · exact syncLoop_mono rest s1 s' h a (some c) (syncStep_adds hstep a hh.symm)
      · exact ih _ _ h a ht

theorem clearLoop_no_new {c : Actor} (l : List Obj) : ∀ (s s' : State),
    clearLoop c l s = some s' →
      ∀ (b : Actor) (x : Obj), x ∉ get_proximity_list s b →
        x ∉ get_proximity_list s' b := by
  induction l with
  | nil =>
    intro s s' h b x hx
    have hss : s = s' := Option.some.inj h
    subst hss
    exact hx
  | cons o rest ih =>
    intro s s' h b x hx
    cases o with
    | none => exact Option.noConfusion h
    | some a =>
      apply ih _ _ h b x
      by_cases hb : b = a
      · subst hb
        rw [mem_gl_discardFrom_self]
        intro hcon
        exact hx hcon.1
      · rw [gl_discardFrom_other _ hb]
        exact hx

theorem clearLoop_removes {c : Actor} (l : List Obj) : ∀ (s s' : State),
    clearLoop c l s = some s' →
      ∀ a, some a ∈ l → some c ∉ get_proximity_list s' a := by
  induction l with
  | nil => intro s s' _ a ha; exact absurd ha (List.not_mem_nil _)
  | cons o rest ih =>
    intro s s' h a ha
    cases o with
    | none => exact Option.noConfusion h
    | some a0 =>
      rcases List.mem_cons.mp ha with hh | ht
      · have ha0 : a = a0 := Option.some.inj hh
        subst ha0
        apply clearLoop_no_new rest _ _ h a
        rw [mem_gl_discardFrom_self]
        intro hcon
        exact hcon.2 rfl
      · exact ih _ _ h a ht

theorem clearLoop_frame {c : Actor} (l : List Obj) : ∀ (s s' : State),
    clearLoop c l s = some s' → ∀ b : Actor, some b ∉ l → s' b = s b := by
  induction l with
  | nil =>
    intro s s' h b _
    have hss : s = s' := Option.some.inj h
    subst hss
    rfl
  | cons o rest ih =>
    intro s s' h b hb
    cases o with
    | none => exact Option.noConfusion h
    | some a0 =>
      have hba : b ≠ a0 := by
        intro he
        exact hb (by rw [he]; exact List.mem_cons_self _ _)
      rw [ih _ _ h b (fun hm => hb (List.mem_cons_of_mem _ hm))]
      exact discardFrom_other _ hba

theorem clearLoop_total (c : Actor) (l : List Obj) : ∀ (s : State),
    (none : Obj) ∉ l → ∃ s', clearLoop c l s = some s' := by
  induction l with
  | nil => intro s _; exact ⟨s, rfl⟩
  | cons o rest ih =>
    intro s hn
    cases o with
    | none => exact absurd (List.mem_cons_self _ _) hn
    | some a =>
      exact ih (discardFrom s a (some c)) (fun hm => hn (List.mem_cons_of_mem _ hm))

theorem mem_gl_foldl_discard {c : Actor} (xs : List Obj) : ∀ (s : State) (o : Obj),
    o ∈ get_proximity_list (xs.foldl (fun s1 x => discardFrom s1 c x) s) c ↔
      (o ∈ get_proximity_list s c ∧ o ∉ xs) := by
  induction xs with
  | nil => intro s o; simp
  | cons x xs ih =>
    intro s o
    rw [List.foldl_cons, ih, mem_gl_discardFrom_self]
    constructor
    · rintro ⟨⟨ho, hox⟩, hoxs⟩
      refine ⟨ho, ?_⟩
      rw [List.mem_cons]
      push_neg
      exact ⟨hox, hoxs⟩
    · rintro ⟨ho, hcons⟩
      rw [List.mem_cons] at hcons
      push_neg at hcons
      exact ⟨⟨ho, hcons.1⟩, hcons.2⟩

theorem foldl_discard_other {c : Actor} (xs : List Obj) : ∀ (s : State) (b : Actor),
    b ≠ c → (xs.foldl (fun s1 x => discardFrom s1 c x) s) b = s b := by
  induction xs with
  | nil => intro s b _; rfl
  | cons x xs ih =>
    intro s b hb
    rw [List.foldl_cons, ih _ _ hb, discardFrom_other _ hb]

theorem pyMaxFrom_ge (l : List (Obj × Int)) : ∀ b : Obj × Int,
    b.2 ≤ (pyMaxFrom b l).2 := by
  induction l with
  | nil => intro b; simp [pyMaxFrom]
  | cons y ys ih =>
    intro b
    unfold pyMaxFrom
    rw [List.foldl_cons]
    by_cases hy : y.2 > b.2
    · rw [if_pos hy]
      exact le_of_lt (lt_of_lt_of_le hy (ih y))
    · rw [if_neg hy]
      exact ih b

theorem pyMaxFrom_split (l : List (Obj × Int)) : ∀ b : Obj × Int,
    ∃ l1 l2, b :: l = l1 ++ (pyMaxFrom b l) :: l2
      ∧ (∀ p ∈ l1, p.2 < (pyMaxFrom b l).2)
      ∧ (∀ p ∈ l2, p.2 ≤ (pyMaxFrom b l).2) := by
  induction l with
  | nil =>
    intro b
    exact ⟨[], [], by simp [pyMaxFrom], by simp, by simp⟩
  | cons y ys ih =>
    intro b
    by_cases hy : y.2 > b.2
    · have hred : pyMaxFrom b (y :: ys) = pyMaxFrom y ys := by
        unfold pyMaxFrom
        rw [List.foldl_cons, if_pos hy]
      obtain ⟨l1, l2, he, h1, h2⟩ := ih y
      rw [hred]
      refine ⟨b :: l1, l2, ?_, ?_, h2⟩
      · rw [List.cons_append, ← he]
      · intro p hp
        rcases List.mem_cons.mp hp with hpb | hpl
        · rw [hpb]
          exact lt_of_lt_of_le hy (pyMaxFrom_ge ys y)
        · exact h1 p hpl
    · have hred : pyMaxFrom b (y :: ys) = pyMaxFrom b ys := by
        unfold pyMaxFrom
        rw [List.foldl_cons, if_neg hy]
      obtain ⟨l1, l2, he, h1, h2⟩ := ih b
      rw [hred]
      cases l1 with
      | nil =>
        have hm : b = pyMaxFrom b ys := by
          have := he
          rw [List.nil_append] at this
          exact (List.cons.inj this).1
        have hl2 : ys = l2 := by
          have := he
          rw [List.nil_append] at this
          exact (List.cons.inj this).2
        refine ⟨[], y :: ys, ?_, by simp, ?_⟩
        · rw [List.nil_append, ← hm]
        · intro p hp
          rcases List.mem_cons.mp hp with hpy | hpin
          · rw [hpy, ← hm]
            exact le_of_not_lt hy
          · rw [← hm]
            have := h2 p (by rw [← hl2]; exact hpin)
            rw [← hm] at this
            exact this
      | cons q l1t =>
        have hq : q = b := by
          have := he
          rw [List.cons_append] at this
          exact (List.cons.inj this).1.symm
        have hys : ys = l1t ++ pyMaxFrom b ys :: l2 := by
          have := he
          rw [List.cons_append] at this
          exact (List.cons.inj this).2
        have hbm : b.2 < (pyMaxFrom b ys).2 := by
          apply h1
          rw [hq] at he ⊢
          exact List.mem_cons_self _ _
        refine ⟨b :: y :: l1t, l2, ?_, ?_, h2⟩
        · rw [List.cons_append, List.cons_append, ← hys]
        · intro p hp
          rcases List.mem_cons.mp hp with hpb | hp2
          · rw [hpb]; exact hbm
          · rcases List.mem_cons.mp hp2 with hpy | hpl
            · rw [hpy]
              exact lt_of_le_of_lt (le_of_not_lt hy) hbm
            · apply h1
              rw [hq]
              exact List.mem_cons_of_mem _ hpl

theorem shouldRemove_eq_amended (env : Env) (c : Actor) (o : Obj) :
    shouldRemove env c o = amendedRemoveC2 env c o := by
  cases o with
  | none => rfl
  | some a =>
    unfold shouldRemove amendedRemoveC2
    cases hv : env.valid a <;> cases hh : env.hasLocAttr a
      <;> cases hn : (env.loc a).isNone <;> simp [hv, hh, hn]

theorem is_in_some_isSome (s : State) (a : Actor) (o : Obj) :
    (is_in_proximity s (some a) o).isSome = true := by
  unfold is_in_proximity
  by_cases he : some a = o
  · simp [he]
  · simp only [if_neg he]
    cases hs : s a with
    | none => simp
    | some p => cases p <;> simp

theorem establish_isSome (s : State) (a b : Actor) :
    (establish_proximity s a b).isSome = true := by
  by_cases hab : a = b
  · subst hab
    simp [establish_proximity]
  · obtain ⟨l1, h1⟩ := initialize_fst_self s a
    obtain ⟨l2, h2⟩ := initialize_fst_self ((initialize_proximity s a).1) b
    have h1' : (initialize_proximity ((initialize_proximity s a).1) b).1 a
        = some (PVal.pset l1) := by
      rw [initialize_fst_other _ _ hab]
      exact h1
    simp [establish_proximity, if_neg hab, h1', h2]

theorem syncStep_total (c : Actor) (s : State) (a : Actor) :
    ∃ s1, syncStep c s (some a) = some s1 := by
  cases hq : is_in_proximity s (some a) (some c) with
  | none =>
    have := is_in_some_isSome s a (some c)
    rw [hq] at this
    exact absurd this (by simp)
  | some bb =>
    cases bb with
    | true => exact ⟨s, by simp [syncStep, hq]⟩
    | false =>
      obtain ⟨l, hl⟩ := initialize_fst_self s a
      exact ⟨setTo ((initialize_proximity s a).1) a (PVal.pset (setAdd l (some c))),
        by simp [syncStep, hq, hl]⟩

theorem syncLoop_total (c : Actor) (l : List Obj) : ∀ s : State,
    (none : Obj) ∉ l → ∃ s', syncLoop c l s = some s' := by
  induction l with
  | nil => intro s _; exact ⟨s, rfl⟩
  | cons o rest ih =>
    intro s hn
    cases o with
    | none => exact absurd (List.mem_cons_self _ _) hn
    | some a =>
      obtain ⟨s1, hs1⟩ := syncStep_total c s a
      obtain ⟨s', hs'⟩ := ih s1 (fun hm => hn (List.mem_cons_of_mem _ hm))
      exact ⟨s', by rw [syncLoop, hs1]; exact hs'⟩

/-! ### Claim theorems -/

/-- C1: for every pair of distinct actors `a` and `b`, in any starting
state, the state produced by `establish_proximity a b` satisfies
`is_in_proximity` in both directions: establish updates both directed
neighbor sets together, so symmetry holds for the pair immediately after
the call. -/
theorem establish_symmetric_adjacency (s : State) (a b : Actor) (hne : a ≠ b) :
    ∀ s', establish_proximity s a b = some s' →
      is_in_proximity s' (some a) (some b) = some true
      ∧ is_in_proximity s' (some b) (some a) = some true := by
  intro s' hs'
  obtain ⟨l1, h1⟩ := initialize_fst_self s a
  obtain ⟨l2, h2⟩ := initialize_fst_self ((initialize_proximity s a).1) b
  have h1' : (initialize_proximity ((initialize_proximity s a).1) b).1 a
      = some (PVal.pset l1) := by
    rw [initialize_fst_other _ _ hne]
    exact h1
  simp only [establish_proximity, if_neg hne, h1', h2, Option.some.injEq] at hs'
  subst hs'
  constructor
  · apply is_in_of_mem
    · intro hcon
      exact hne (Option.some.inj hcon)
    · rw [mem_gl_iff]
      refine ⟨setAdd l1 (some b), ?_, mem_setAdd_self _ _⟩
      rw [setTo_other _ _ _ hne, setTo_self]
  · apply is_in_of_mem
    · intro hcon
      exact hne (Option.some.inj hcon).symm
    · rw [mem_gl_iff]
      exact ⟨setAdd l2 (some a), setTo_self _ _ _, mem_setAdd_self _ _⟩

/-- Witness for C1: establishing proximity between actors 0 and 1 on the
empty store yields mutual adjacency. -/
theorem establish_symmetric_adjacency_witness :
    is_in_proximity estabWitState (some 0) (some 1) = some true
    ∧ is_in_proximity estabWitState (some 1) (some 0) = some true :=
  establish_symmetric_adjacency emptyState 0 1 (by decide) estabWitState rfl

/-- C7: `establish_proximity a a` is a no-op returning the state unchanged,
and `is_in_proximity` on an actor and itself is `false` in every state,
regardless of set contents, so the no-self-loop invariant is enforced at
writes and guarded at the read boundary. -/
theorem no_self_loop_guard :
    (∀ (s : State) (a : Actor), establish_proximity s a a = some s)
    ∧ ∀ (s : State) (a : Actor), is_in_proximity s (some a) (some a) = some false := by
  constructor
  · intro s a
    simp [establish_proximity]
  · intro s a
    simp [is_in_proximity]

/-- C8: after a successful `establish_proximity a b` followed by
`break_proximity a b`, adjacency is gone in both directions: break removes
both directed halves of the edge. -/
theorem establish_break_symmetric (s : State) (a b : Actor) (hne : a ≠ b) :
    ∀ s', establish_proximity s a b = some s' →
      is_in_proximity (break_proximity s' a b) (some a) (some b) = some false
      ∧ is_in_proximity (break_proximity s' a b) (some b) (some a) = some false := by
  intro s' _
  constructor
  · apply is_in_of_not_mem
    unfold break_proximity
    rw [if_neg hne, gl_discardFrom_other _ hne, mem_gl_discardFrom_self]
    intro hcon
    exact hcon.2 rfl
  · apply is_in_of_not_mem
    unfold break_proximity
    rw [if_neg hne, mem_gl_discardFrom_self]
    intro hcon
    exact hcon.2 rfl

/-- Witness for C8: establish 0-1 on the empty store, then break 0-1;
neither direction is adjacent. -/
theorem establish_break_symmetric_witness :
    is_in_proximity (break_proximity estabWitState 0 1) (some 0) (some 1) = some false
    ∧ is_in_proximity (break_proximity estabWitState 0 1) (some 1) (some 0) = some false :=
  establish_break_symmetric emptyState 0 1 (by decide) estabWitState rfl

/-- C9: `initialize_proximity` returns `true` exactly when the stored value
is missing or not a proper set; in that case it installs a fresh empty set
and otherwise leaves the state untouched; a second consecutive call always
returns `false` and changes nothing. -/
theorem initialize_idempotent_spec (s : State) (c : Actor) :
    ((initialize_proximity s c).2 = true ↔ isProperSet (s c) = false)
    ∧ ((initialize_proximity s c).1 =
        if isProperSet (s c) then s else setTo s c (PVal.pset []))
    ∧ initialize_proximity (initialize_proximity s c).1 c =
        ((initialize_proximity s c).1, false) := by
  cases h : isProperSet (s c) with
  | true =>
    refine ⟨by simp [initialize_proximity, h], by simp [initialize_proximity, h], ?_⟩
    rw [initialize_of_proper h]
    exact initialize_of_proper h
  | false =>
    have hfst : (initialize_proximity s c).1 = setTo s c (PVal.pset []) := by
      simp [initialize_proximity, h]
    refine ⟨by simp [initialize_proximity, h], by simp [initialize_proximity, h], ?_⟩
    rw [hfst]
    have hp : isProperSet ((setTo s c (PVal.pset [])) c) = true := by
      rw [setTo_self]
      rfl
    exact initialize_of_proper hp

/-- C2 counterexample: actor 9 has a `location` attribute whose value is
`None` (no resolvable location) and holds the valid, located actor 5 as a
neighbor.  The claim's removal condition is false for actor 5, yet
`cleanup_invalid_proximity` removes it, because the code only checks
`hasattr(character, 'location')` and `None != location` is true. -/
theorem cleanup_claim_counterexample :
    (some 5 : Obj) ∈ get_proximity_list unknownLocState 9
    ∧ claimRemoveC2 unknownLocEnv 9 (some 5) = false
    ∧ (some 5 : Obj) ∉
        get_proximity_list (cleanup_invalid_proximity unknownLocEnv unknownLocState 9) 9 :=
  ⟨by decide, by decide, by decide⟩

/-- C2 (amended): `cleanup_invalid_proximity` keeps a neighbor of the
owner's set exactly when the amended removal condition is false — the
owner-side guard requires only that the `location` attribute exist, not
that its value be known — and it touches no actor's stored value other
than the owner's own. -/
theorem cleanup_membership_amended (env : Env) (s : State) (c : Actor) (o : Obj) :
    (o ∈ get_proximity_list (cleanup_invalid_proximity env s c) c ↔
      o ∈ get_proximity_list s c ∧ amendedRemoveC2 env c o = false)
    ∧ ∀ b : Actor, b ≠ c → cleanup_invalid_proximity env s c b = s b := by
  unfold cleanup_invalid_proximity
  cases hs : s c with
  | none =>
    constructor
    · simp [get_proximity_list, hs]
    · intro b _
      rfl
  | some p =>
    cases p with
    | junk =>
      constructor
      · simp [get_proximity_list, hs]
      · intro b _
        rfl
    | pset l =>
      constructor
      · rw [mem_gl_foldl_discard, gl_of_pset hs]
        constructor
        · rintro ⟨ho, hfil⟩
          refine ⟨ho, ?_⟩
          cases ham : amendedRemoveC2 env c o with
          | false => rfl
          | true =>
            exfalso
            apply hfil
            apply List.mem_filter.mpr
            refine ⟨ho, ?_⟩
            rw [shouldRemove_eq_amended]
            exact ham
        · rintro ⟨ho, ham⟩
          refine ⟨ho, fun hf => ?_⟩
          have hsr := (List.mem_filter.mp hf).2
          rw [shouldRemove_eq_amended, ham] at hsr
          exact Bool.noConfusion hsr
      · intro b hb
        exact foldl_discard_other _ _ _ hb

/-- Witness for C2 (amended), frame part at a concrete input: cleaning up
actor 9 leaves actor 3's storage untouched. -/
theorem cleanup_membership_amended_witness :
    cleanup_invalid_proximity unknownLocEnv unknownLocState 9 3 = unknownLocState 3 :=
  (cleanup_membership_amended unknownLocEnv unknownLocState 9 (some 5)).2 3 (by decide)

/-- C3 counterexample: with the Python value `None` inside actor 0's
neighbor set, both `clear_all_proximity` and `sync_proximity_bidirectional`
evaluate `other_char.ndb` on `None` and raise, modelled by `none`. -/
theorem null_neighbor_raises :
    clear_all_proximity nullEntryState 0 = none
    ∧ sync_proximity_bidirectional nullEntryState 0 = none :=
  ⟨rfl, rfl⟩

/-- C3 (amended): `initialize`, `break`, `listNeighbors`, `cleanupInvalid`
and `opposedRoll` are total by construction (every access is guarded);
`establish` and `isAdjacent` never raise for real-actor arguments in any
state, and `clearAll` and `syncBidirectional` never raise provided the
owner's neighbor set contains no null entry (but can raise on a null
entry, see the counterexample). -/
theorem ops_no_raise_amended :
    (∀ (s : State) (a b : Actor), (establish_proximity s a b).isSome = true)
    ∧ (∀ (s : State) (a : Actor) (o : Obj), (is_in_proximity s (some a) o).isSome = true)
    ∧ ∀ (s : State) (c : Actor), (none : Obj) ∉ get_proximity_list s c →
        (clear_all_proximity s c).isSome = true
        ∧ (sync_proximity_bidirectional s c).isSome = true := by
  refine ⟨establish_isSome, is_in_some_isSome, ?_⟩
  intro s c hn
  cases hs : s c with
  | none =>
    constructor <;> simp [clear_all_proximity, sync_proximity_bidirectional, hs]
  | some p =>
    cases p with
    | junk =>
      constructor <;> simp [clear_all_proximity, sync_proximity_bidirectional, hs]
    | pset l =>
      have hnl : (none : Obj) ∉ l := by
        rw [gl_of_pset hs] at hn
        exact hn
      constructor
      · obtain ⟨s1, hs1⟩ := clearLoop_total c l s hnl
        simp [clear_all_proximity, hs, hs1]
      · obtain ⟨s', hs'⟩ := syncLoop_total c l s hnl
        simp [sync_proximity_bidirectional, hs, hs']

/-- Witness for C3 (amended): clearing actor 0 on a store whose sets hold
only real actors succeeds. -/
theorem ops_no_raise_amended_witness :
    (clear_all_proximity triangleState 0).isSome = true :=
  (ops_no_raise_amended.2.2 triangleState 0 (by decide)).1

/-- C5: a successful `sync_proximity_bidirectional` call puts the owner
into the set of every neighbor in the owner's set (in particular a
one-sided edge is repaired, giving back-adjacency for any distinct
neighbor), and it never removes an entry from any set. -/
theorem sync_repairs_reciprocal (s : State) (c : Actor) (s' : State)
    (h : sync_proximity_bidirectional s c = some s') :
    (∀ a : Actor, some a ∈ get_proximity_list s c → some c ∈ get_proximity_list s' a)
    ∧ (∀ a : Actor, a ≠ c → some a ∈ get_proximity_list s c →
        is_in_proximity s' (some a) (some c) = some true)
    ∧ ∀ (b : Actor) (x : Obj),
        x ∈ get_proximity_list s b → x ∈ get_proximity_list s' b := by
  unfold sync_proximity_bidirectional at h
  cases hs : s c with
  | none =>
    rw [hs] at h
    have hss : s = s' := Option.some.inj h
    subst hss
    refine ⟨?_, ?_, fun b x hx => hx⟩
    · intro a ha
      rw [gl_of_not_proper (by rw [hs]; rfl)] at ha
      exact absurd ha (List.not_mem_nil _)
    · intro a _ ha
      rw [gl_of_not_proper (by rw [hs]; rfl)] at ha
      exact absurd ha (List.not_mem_nil _)
  | some p =>
    cases p with
    | junk =>
      rw [hs] at h
      have hss : s = s' := Option.some.inj h
      subst hss
      refine ⟨?_, ?_, fun b x hx => hx⟩
      · intro a ha
        rw [gl_of_not_proper (by rw [hs]; rfl)] at ha
        exact absurd ha (List.not_mem_nil _)
      · intro a _ ha
        rw [gl_of_not_proper (by rw [hs]; rfl)] at ha
        exact absurd ha (List.not_mem_nil _)
    | pset l =>
      rw [hs] at h
      have hgl : get_proximity_list s c = l := gl_of_pset hs
      refine ⟨?_, ?_, fun b x hx => syncLoop_mono l s s' h b x hx⟩
      · intro a ha
        rw [hgl] at ha
        exact syncLoop_adds l s s' h a ha
      · intro a hac ha
        rw [hgl] at ha
        apply is_in_of_mem
        · intro hcon
          exact hac (Option.some.inj hcon)
        · exact syncLoop_adds l s s' h a ha

/-- Witness for C5: after syncing actor 0 on the one-sided store, actor 1
is adjacent back to actor 0. -/
theorem sync_repairs_reciprocal_witness :
    is_in_proximity syncWitState (some 1) (some 0) = some true :=
  (sync_repairs_reciprocal oneSidedState 0 syncWitState rfl).2.1 1 (by decide) (by decide)

/-- C6: a successful `clear_all_proximity` call empties the owner's own
list and removes the owner from the set of every neighbor that was in the
owner's set, so no former neighbor is adjacent back to the owner. -/
theorem clear_all_removes_traces (s : State) (c : Actor) (s' : State)
    (h : clear_all_proximity s c = some s') :
    get_proximity_list s' c = []
    ∧ ∀ b : Actor, some b ∈ get_proximity_list s c →
        is_in_proximity s' (some b) (some c) = some false := by
  unfold clear_all_proximity at h
  cases hs : s c with
  | none =>
    rw [hs] at h
    have hss : s = s' := Option.some.inj h
    subst hss
    constructor
    · exact gl_of_not_proper (by rw [hs]; rfl)
    · intro b hb
      rw [gl_of_not_proper (by rw [hs]; rfl)] at hb
      exact absurd hb (List.not_mem_nil _)
  | some p =>
    cases p with
    | junk =>
      rw [hs] at h
      have hss : s = s' := Option.some.inj h
      subst hss
      constructor
      · exact gl_of_not_proper (by rw [hs]; rfl)
      · intro b hb
        rw [gl_of_not_proper (by rw [hs]; rfl)] at hb
        exact absurd hb (List.not_mem_nil _)
    | pset l =>
      rw [hs] at h
      have h2 : (match clearLoop c l s with
          | some s1 => some (setTo s1 c (PVal.pset []))
          | none => none) = some s' := h
      cases hcl : clearLoop c l s with
      | none =>
        rw [hcl] at h2
        exact Option.noConfusion h2
      | some s1 =>
        rw [hcl] at h2
        have hset : setTo s1 c (PVal.pset []) = s' := Option.some.inj h2
        subst hset
        constructor
        · exact gl_of_pset (setTo_self _ _ _)
        · intro b hb
          rw [gl_of_pset hs] at hb
          by_cases hbc : b = c
          · subst hbc
            simp [is_in_proximity]
          · apply is_in_of_not_mem
            have hglb : get_proximity_list (setTo s1 c (PVal.pset [])) b
                = get_proximity_list s1 b := by
              unfold get_proximity_list
              rw [setTo_other _ _ _ hbc]
            rw [hglb]
            exact clearLoop_removes l s s1 hcl b hb

/-- Witness for C6: clearing actor 0 with neighbors 1 and 2 empties its
list and leaves neither neighbor adjacent back. -/
theorem clear_all_removes_traces_witness :
    get_proximity_list clearWitState 0 = []
    ∧ is_in_proximity clearWitState (some 1) (some 0) = some false
    ∧ is_in_proximity clearWitState (some 2) (some 0) = some false :=
  ⟨(clear_all_removes_traces triangleState 0 clearWitState rfl).1,
   (clear_all_removes_traces triangleState 0 clearWitState rfl).2 1 (by decide),
   (clear_all_removes_traces triangleState 0 clearWitState rfl).2 2 (by decide)⟩

/-- C10: `clear_all_proximity` fans out only over the owner's current
neighbors: any distinct actor not in the owner's set at call time keeps its
stored value completely unchanged, so one-sided drift toward the owner
survives the call. -/
theorem clear_all_frame (s : State) (c : Actor) (s' : State)
    (h : clear_all_proximity s c = some s') :
    ∀ b : Actor, b ≠ c → some b ∉ get_proximity_list s c →
      s' b = s b
      ∧ (some c ∈ get_proximity_list s b → some c ∈ get_proximity_list s' b) := by
  intro b hbc hbmem
  have hsb : s' b = s b := by
    unfold clear_all_proximity at h
    cases hs : s c with
    | none =>
      rw [hs] at h
      rw [← Option.some.inj h]
    | some p =>
      cases p with
      | junk =>
        rw [hs] at h
        rw [← Option.some.inj h]
      | pset l =>
        rw [hs] at h
        have h2 : (match clearLoop c l s with
            | some s1 => some (setTo s1 c (PVal.pset []))
            | none => none) = some s' := h
        cases hcl : clearLoop c l s with
        | none =>
          rw [hcl] at h2
          exact Option.noConfusion h2
        | some s1 =>
          rw [hcl] at h2
          rw [← Option.some.inj h2, setTo_other _ _ _ hbc]
          apply clearLoop_frame l s s1 hcl b
          rw [gl_of_pset hs] at hbmem
          exact hbmem
  refine ⟨hsb, fun hc => ?_⟩
  have hgl : get_proximity_list s' b = get_proximity_list s b := by
    unfold get_proximity_list
    rw [hsb]
  rw [hgl]
  exact hc

/-- Witness for C10: clearing actor 0 leaves drifted actor 2's storage
untouched. -/
theorem clear_all_frame_witness : clearDriftWitState 2 = driftState 2 :=
  (clear_all_frame driftState 0 clearDriftWitState rfl 2 (by decide) (by decide)).1

/-- C4: `proximity_opposed_roll` returns the sentinel `(0, none, [])` when
the neighbor list is empty or no neighbor exposes the stat; otherwise it
returns the full roll list — one independent roll per stat-exposing
neighbor, in enumeration order — together with a maximum-roll pair whose
position splits the list into strictly-smaller earlier rolls and
no-greater later rolls (first-encountered neighbor wins ties); on
neighbors [1,2,3] rolling [5,9,9] the winner is the first 9, from
neighbor 2. -/
theorem opposed_roll_spec :
    (∀ (env : Env) (s : State) (c : Actor) (stat : String),
        get_proximity_list s c = [] →
        proximity_opposed_roll env s c stat = (0, none, []))
    ∧ (∀ (env : Env) (s : State) (c : Actor) (stat : String),
        collectRolls env stat (get_proximity_list s c) = [] →
        proximity_opposed_roll env s c stat = (0, none, []))
    ∧ (∀ (env : Env) (s : State) (c : Actor) (stat : String)
        (r : Obj × Int) (rest : List (Obj × Int)),
        collectRolls env stat (get_proximity_list s c) = r :: rest →
        (proximity_opposed_roll env s c stat).2.2 = r :: rest
        ∧ ∃ l1 l2, r :: rest
              = l1 ++ ((proximity_opposed_roll env s c stat).2.1,
                  (proximity_opposed_roll env s c stat).1) :: l2
            ∧ (∀ p ∈ l1, p.2 < (proximity_opposed_roll env s c stat).1)
            ∧ ∀ p ∈ l2, p.2 ≤ (proximity_opposed_roll env s c stat).1)
    ∧ proximity_opposed_roll rollEnv rollState 0 "dex"
        = (9, some 2, [(some 1, 5), (some 2, 9), (some 3, 9)]) := by
  refine ⟨?_, ?_, ?_, by decide⟩
  · intro env s c stat h
    simp [proximity_opposed_roll, h, collectRolls]
  · intro env s c stat h
    by_cases hpl : get_proximity_list s c = []
    · simp [proximity_opposed_roll, hpl, collectRolls]
    · simp [proximity_opposed_roll, hpl, h]
  · intro env s c stat r rest h
    have hpl : ¬ get_proximity_list s c = [] := by
      intro hnil
      rw [hnil] at h
      simp [collectRolls] at h
    have hres : proximity_opposed_roll env s c stat
        = ((pyMaxFrom r rest).2, (pyMaxFrom r rest).1, r :: rest) := by
      simp [proximity_opposed_roll, hpl, h]
    rw [hres]
    refine ⟨rfl, ?_⟩
    obtain ⟨l1, l2, he, h1, h2⟩ := pyMaxFrom_split rest r
    exact ⟨l1, l2, he, h1, h2⟩

/-- Witness for C4: an actor with no stored proximity set gets the
sentinel result. -/
theorem opposed_roll_spec_witness :
    proximity_opposed_roll rollEnv emptyState 0 "dex" = (0, none, []) :=
  opposed_roll_spec.1 rollEnv emptyState 0 "dex" rfl
